import Mathlib

/-
Verification of the visual-difference pipeline of webpage_monitor.py.

The embedding models the core pipeline of the WebpageMonitor class:
find_differences (lines 48-76), draw_differences (lines 78-106) and
monitor_url_for_changes (lines 129-165).  Images are modelled as finite
grids of channel tuples; the OpenCV and PIL library calls used by the
source are modelled by their documented integer semantics, noted at each
definition.
-/

/-- Pixel of a BGR capture: channel intensities (blue, green, red), each 0..255. -/
abbrev Pix := Nat × Nat × Nat

/-- Raster image as produced by the capture provider: height, width and a pixel map.
Pixels outside the height times width grid are never read by the pipeline. -/
structure Img where
  h : Nat
  w : Nat
  pix : Nat → Nat → Pix

/-- Single channel intensity image, the result of the grayscale conversion. -/
structure GrayImg where
  h : Nat
  w : Nat
  pix : Nat → Nat → Nat

/-- RGBA pixel used by the PIL side of draw_differences. -/
abbrev RGBA := Nat × Nat × Nat × Nat

/-- RGBA image, the output type of draw_differences. -/
structure RGBAImg where
  h : Nat
  w : Nat
  pix : Nat → Nat → RGBA

/-- Rectangle (x, y, width, height), the shape of the area argument. -/
abbrev Rect := Nat × Nat × Nat × Nat

/-- Bounding box (x, y, width, height) as produced by cv2.boundingRect. -/
abbrev Box := Nat × Nat × Nat × Nat

/-- Error of the per-pixel subtraction: cv2.subtract raises when the two
input arrays differ in shape.  This is the only failure point of
find_differences, which performs no validation of its own. -/
inductive DiffError where
  | sizeMismatch
deriving DecidableEq

/-- OpenCV cvtColor COLOR_BGR2GRAY on one pixel: fixed point luminance
with coefficients B2Y 1868, G2Y 9617, R2Y 4899, descaled by 2 pow 14
after adding half, exactly as OpenCV computes it on 8 bit input. -/
def grayPix (p : Pix) : Nat :=
  (1868 * p.1 + 9617 * p.2.1 + 4899 * p.2.2 + 8192) / 16384

/-- Lines 52-53: cv2.cvtColor(img, cv2.COLOR_BGR2GRAY). -/
def cvtColorBGR2GRAY (img : Img) : GrayImg :=
  ⟨img.h, img.w, fun y x => grayPix (img.pix y x)⟩

/-- Lines 57-58: the numpy slice g[y0 : y0 + ah, x0 : x0 + aw].  Python
slicing clamps the stop index to the array extent and yields an empty
axis when the start is past the end; it never raises for a rectangle
beyond the image bounds. -/
def crop (g : GrayImg) (a : Rect) : GrayImg :=
  ⟨min (a.2.1 + a.2.2.2) g.h - a.2.1,
   min (a.1 + a.2.2.1) g.w - a.1,
   fun y x => g.pix (a.2.1 + y) (a.1 + x)⟩

/-- Line 61: cv2.subtract on uint8 arrays is the saturating per-pixel
difference max(0, first minus second), which on Nat is truncated
subtraction.  The first argument is gray1 (the baseline), the second is
gray2 (the new capture). -/
def subtractSat (g1 g2 : GrayImg) : GrayImg :=
  ⟨g1.h, g1.w, fun y x => g1.pix y x - g2.pix y x⟩

/-- Pixels of the changed-pixel mask: cv2.findContours treats every
nonzero pixel of the single channel input as foreground. -/
def nonzeroPixels (g : GrayImg) : List (Nat × Nat) :=
  (List.range g.h).flatMap fun y =>
    (List.range g.w).filterMap fun x =>
      if g.pix y x = 0 then none else some (y, x)

/-- Eight-neighbour adjacency used by cv2.findContours to form connected
foreground components. -/
def adj8 (p q : Nat × Nat) : Bool :=
  decide (max p.1 q.1 - min p.1 q.1 ≤ 1) &&
  decide (max p.2 q.2 - min p.2 q.2 ≤ 1) &&
  (p != q)

/-- One closure step of the component computation: add every mask pixel
adjacent to the current set. -/
def growStep (mask cur : List (Nat × Nat)) : List (Nat × Nat) :=
  cur ++ mask.filter fun q => (!cur.contains q) && cur.any fun p => adj8 p q

/-- Fueled iteration of growStep. -/
def growN : Nat → List (Nat × Nat) → List (Nat × Nat) → List (Nat × Nat)
  | 0, _, cur => cur
  | n + 1, mask, cur => growN n mask (growStep mask cur)

/-- Connected component of the mask containing p, computed with enough
fuel to reach the fixed point. -/
def component (mask : List (Nat × Nat)) (p : Nat × Nat) : List (Nat × Nat) :=
  growN mask.length mask [p]

/-- Tight axis-aligned bounding rectangle (x, y, w, h) of the nonempty
pixel set containing p together with l, as cv2.boundingRect computes it
for a contour: width and height are max minus min plus one. -/
def bboxOf (p : Nat × Nat) (l : List (Nat × Nat)) : Box :=
  (l.foldr (fun q m => min q.2 m) p.2,
   l.foldr (fun q m => min q.1 m) p.1,
   l.foldr (fun q m => max q.2 m) p.2 - l.foldr (fun q m => min q.2 m) p.2 + 1,
   l.foldr (fun q m => max q.1 m) p.1 - l.foldr (fun q m => min q.1 m) p.1 + 1)

/-- Lines 64-67: cv2.findContours with RETR_EXTERNAL followed by
cv2.boundingRect on each contour.  The external contour of a connected
foreground component passes through its extreme pixels, so its bounding
rectangle is the bounding rectangle of the component; the list of boxes
is therefore the set of component bounding rectangles of the mask. -/
def boundingBoxesOf (g : GrayImg) : List Box :=
  ((nonzeroPixels g).map fun p => bboxOf p (component (nonzeroPixels g) p)).dedup

/-- Lines 48-76: find_differences.  Line 70 calls
cv2.groupRectangles(boundingBoxes, 0, 1); OpenCV returns the input
rectangle list unchanged whenever groupThreshold is not positive, so the
grouping pass is the identity and is inlined away here.  Line 74
translates box origins by the area origin when an area was supplied.
The only failure is the size check inside cv2.subtract, applied to the
already cropped arrays. -/
def fdGray (g1 g2 : GrayImg) (area : Option Rect) : Except DiffError (List Box) :=
  match area with
  | none =>
      if g1.h = g2.h ∧ g1.w = g2.w then
        .ok (boundingBoxesOf (subtractSat g1 g2))
      else .error .sizeMismatch
  | some a =>
      if (crop g1 a).h = (crop g2 a).h ∧ (crop g1 a).w = (crop g2 a).w then
        .ok ((boundingBoxesOf (subtractSat (crop g1 a) (crop g2 a))).map fun b =>
          (b.1 + a.1, b.2.1 + a.2.1, b.2.2))
      else .error .sizeMismatch

/-- find_differences converts both inputs to grayscale (lines 52-53) and
hands everything downstream to the intensity-level pipeline. -/
def find_differences (img1 img2 : Img) (area : Option Rect) : Except DiffError (List Box) :=
  fdGray (cvtColorBGR2GRAY img1) (cvtColorBGR2GRAY img2) area

/-- Concrete one pixel white image. -/
def imgWhite1 : Img := ⟨1, 1, fun _ _ => (255, 255, 255)⟩

/-- Concrete one pixel black image. -/
def imgBlack1 : Img := ⟨1, 1, fun _ _ => (0, 0, 0)⟩

/-- Concrete two by two black image. -/
def imgBlack2 : Img := ⟨2, 2, fun _ _ => (0, 0, 0)⟩

/-- Concrete two by two image with a single white pixel at the origin. -/
def imgPix2 : Img := ⟨2, 2, fun y x => if y = 0 ∧ x = 0 then (255, 255, 255) else (0, 0, 0)⟩

lemma mem_nonzeroPixels {g : GrayImg} {p : Nat × Nat} :
    p ∈ nonzeroPixels g ↔ p.1 < g.h ∧ p.2 < g.w ∧ g.pix p.1 p.2 ≠ 0 := by
  obtain ⟨y, x⟩ := p
  simp only [nonzeroPixels, List.mem_flatMap, List.mem_filterMap, List.mem_range]
  constructor
  · rintro ⟨a, ha, b, hb, hab⟩
    by_cases hz : g.pix a b = 0
    · simp [hz] at hab
    · simp only [hz, if_false, Option.some.injEq, Prod.mk.injEq] at hab
      obtain ⟨rfl, rfl⟩ := hab
      exact ⟨ha, hb, hz⟩
  · rintro ⟨hy, hx, hz⟩
    exact ⟨y, hy, x, hx, by simp [hz]⟩

lemma growN_sub {S : Nat × Nat → Prop} :
    ∀ (n : Nat) (mask cur : List (Nat × Nat)),
      (∀ q ∈ cur, S q) → (∀ q ∈ mask, S q) → ∀ q ∈ growN n mask cur, S q := by
  intro n
  induction n with
  | zero => intro mask cur hc _ q hq; exact hc q hq
  | succ m ih =>
      intro mask cur hc hm q hq
      refine ih mask (growStep mask cur) ?_ hm q hq
      intro r hr
      rcases List.mem_append.1 hr with h | h
      · exact hc r h
      · exact hm r (List.mem_of_mem_filter h)

lemma mem_growN_self :
    ∀ (n : Nat) (mask cur : List (Nat × Nat)) (p : Nat × Nat),
      p ∈ cur → p ∈ growN n mask cur := by
  intro n
  induction n with
  | zero => intro _ _ _ hp; exact hp
  | succ m ih =>
      intro mask cur p hp
      exact ih mask (growStep mask cur) p (List.mem_append_left _ hp)

lemma component_sub {mask : List (Nat × Nat)} {p q : Nat × Nat}
    (hq : q ∈ component mask p) : q = p ∨ q ∈ mask := by
  refine growN_sub (S := fun r => r = p ∨ r ∈ mask) mask.length mask [p] ?_ ?_ q hq
  · intro r hr
    simp only [List.mem_singleton] at hr
    exact Or.inl hr
  · intro r hr
    exact Or.inr hr

lemma self_mem_component (mask : List (Nat × Nat)) (p : Nat × Nat) :
    p ∈ component mask p :=
  mem_growN_self mask.length mask [p] p (List.mem_singleton.2 rfl)

lemma foldr_min_le (f : Nat × Nat → Nat) (p : Nat × Nat) (l : List (Nat × Nat)) :
    l.foldr (fun q m => min (f q) m) (f p) ≤ f p := by
  induction l with
  | nil => exact le_refl _
  | cons q t ih => exact le_trans (min_le_right _ _) ih

lemma le_foldr_max (f : Nat × Nat → Nat) (p : Nat × Nat) (l : List (Nat × Nat)) :
    f p ≤ l.foldr (fun q m => max (f q) m) (f p) := by
  induction l with
  | nil => exact le_refl _
  | cons q t ih => exact le_trans ih (le_max_right _ _)

lemma foldr_max_lt {f : Nat × Nat → Nat} {p : Nat × Nat} {l : List (Nat × Nat)} {B : Nat}
    (hp : f p < B) (hl : ∀ q ∈ l, f q < B) :
    l.foldr (fun q m => max (f q) m) (f p) < B := by
  induction l with
  | nil => exact hp
  | cons q t ih =>
      refine max_lt (hl q (List.mem_cons_self q t)) ?_
      exact ih fun r hr => hl r (List.mem_cons_of_mem q hr)

lemma bboxOf_bounds {p : Nat × Nat} {l : List (Nat × Nat)} {H W : Nat}
    (hp : p.1 < H ∧ p.2 < W) (hl : ∀ q ∈ l, q.1 < H ∧ q.2 < W) :
    (bboxOf p l).1 + (bboxOf p l).2.2.1 ≤ W ∧
    (bboxOf p l).2.1 + (bboxOf p l).2.2.2 ≤ H := by
  have hx1 : l.foldr (fun q m => min q.2 m) p.2 ≤ p.2 := foldr_min_le Prod.snd p l
  have hx2 : p.2 ≤ l.foldr (fun q m => max q.2 m) p.2 := le_foldr_max Prod.snd p l
  have hx3 : l.foldr (fun q m => max q.2 m) p.2 < W :=
    foldr_max_lt (f := Prod.snd) hp.2 fun q hq => (hl q hq).2
  have hy1 : l.foldr (fun q m => min q.1 m) p.1 ≤ p.1 := foldr_min_le Prod.fst p l
  have hy2 : p.1 ≤ l.foldr (fun q m => max q.1 m) p.1 := le_foldr_max Prod.fst p l
  have hy3 : l.foldr (fun q m => max q.1 m) p.1 < H :=
    foldr_max_lt (f := Prod.fst) hp.1 fun q hq => (hl q hq).1
  simp only [bboxOf]
  omega

lemma boundingBoxesOf_bounds {g : GrayImg} {b : Box}
    (hb : b ∈ boundingBoxesOf g) :
    b.1 + b.2.2.1 ≤ g.w ∧ b.2.1 + b.2.2.2 ≤ g.h := by
  rw [boundingBoxesOf, List.mem_dedup, List.mem_map] at hb
  obtain ⟨p, hp, rfl⟩ := hb
  have hpN := mem_nonzeroPixels.1 hp
  have hcomp : ∀ q ∈ component (nonzeroPixels g) p, q.1 < g.h ∧ q.2 < g.w := by
    intro q hq
    rcases component_sub hq with h | h
    · subst h
      exact ⟨hpN.1, hpN.2.1⟩
    · have := mem_nonzeroPixels.1 h
      exact ⟨this.1, this.2.1⟩
  exact bboxOf_bounds ⟨hpN.1, hpN.2.1⟩ hcomp

lemma nonzeroPixels_subtract_self (g : GrayImg) :
    nonzeroPixels (subtractSat g g) = [] := by
  rw [List.eq_nil_iff_forall_not_mem]
  intro p hp
  have h := mem_nonzeroPixels.1 hp
  exact h.2.2 (Nat.sub_self _)

lemma fdGray_self (g : GrayImg) (area : Option Rect) : fdGray g g area = .ok [] := by
  cases area with
  | none =>
      rw [fdGray, if_pos ⟨rfl, rfl⟩, boundingBoxesOf, nonzeroPixels_subtract_self]
      simp
  | some a =>
      rw [fdGray, if_pos ⟨rfl, rfl⟩, boundingBoxesOf, nonzeroPixels_subtract_self]
      simp

/-- C3: for every image, comparing two pixel-identical copies of it,
with any area argument or none at all, yields an empty difference set. -/
theorem find_differences_identical (img : Img) (area : Option Rect) :
    find_differences img img area = .ok [] :=
  fdGray_self (cvtColorBGR2GRAY img) area

/-- C2 counterexample: the claim states the per-pixel difference is
max(0, intensity of the new capture minus intensity of the baseline).
For a white baseline and a black new capture the code computes 255 at
pixel (0,0) while the claimed value is 0, and the decreasing pixel is
flagged as a difference box, so the claim as stated is false. -/
theorem subtract_direction_counterexample :
    ¬ ((subtractSat (cvtColorBGR2GRAY imgWhite1) (cvtColorBGR2GRAY imgBlack1)).pix 0 0 =
        (max 0 ((grayPix (imgBlack1.pix 0 0) : Int) - (grayPix (imgWhite1.pix 0 0) : Int))).toNat) ∧
    find_differences imgWhite1 imgBlack1 none = .ok [(0, 0, 1, 1)] := by
  constructor
  · decide
  · rfl

/-- C2 amended: the mask of changed pixels used by find_differences
contains exactly the in-bounds pixels whose intensity strictly decreases
from the first image (the baseline) to the second (the new capture);
pixels whose intensity increases are never flagged. -/
theorem diff_pixel_policy (img1 img2 : Img) (y x : Nat) :
    (y, x) ∈ nonzeroPixels (subtractSat (cvtColorBGR2GRAY img1) (cvtColorBGR2GRAY img2)) ↔
      y < img1.h ∧ x < img1.w ∧ grayPix (img2.pix y x) < grayPix (img1.pix y x) := by
  rw [mem_nonzeroPixels]
  show y < img1.h ∧ x < img1.w ∧
      grayPix (img1.pix y x) - grayPix (img2.pix y x) ≠ 0 ↔ _
  omega

/-- Line 95: the box (x, y, w, h) becomes the PIL rectangle
(x, y, x + w, y + h) of corner coordinates. -/
def toPillowRect (b : Box) : Int × Int × Int × Int :=
  ((b.1 : Int), (b.2.1 : Int), ((b.1 + b.2.2.1 : Nat) : Int), ((b.2.1 + b.2.2.2 : Nat) : Int))

/-- Line 98: five pixels of padding are added on all four sides.  No
clamping to the image bounds is performed, so the coordinates live in
the integers and can be negative. -/
def padRect (r : Int × Int × Int × Int) : Int × Int × Int × Int :=
  (r.1 - 5, r.2.1 - 5, r.2.2.1 + 5, r.2.2.2 + 5)

/-- Membership of a grid pixel in a PIL rectangle: ImageDraw.rectangle
fills both corner coordinates inclusively. -/
def inPillowRect (r : Int × Int × Int × Int) (y x : Nat) : Bool :=
  decide (r.1 ≤ (x : Int)) && decide ((x : Int) ≤ r.2.2.1) &&
  decide (r.2.1 ≤ (y : Int)) && decide ((y : Int) ≤ r.2.2.2)

/-- Lines 89-101: the transparent overlay layer with every padded
rectangle painted in fill colour (0, 255, 0, 50).  The layer is a grid
of the same size as the base image; drawing outside the canvas is
clipped away by the rasteriser, which this grid representation models
by only ever holding pixels at in-bounds coordinates. -/
def overlayOf (hgt wid : Nat) (diffs : List Box) : RGBAImg :=
  ⟨hgt, wid, fun y x =>
    if (diffs.map fun b => padRect (toPillowRect b)).any (fun r => inPillowRect r y x) then
      (0, 255, 0, 50)
    else (0, 0, 0, 0)⟩

/-- Line 104: PIL alpha_composite of the overlay over the base,
specialised to the fully opaque base produced by putalpha(255) on
line 86: the output alpha is 255 and each colour channel is the
rounded convex combination of overlay and base weighted by the overlay
alpha. -/
def compositePix (base over : RGBA) : RGBA :=
  ((over.1 * over.2.2.2 + base.1 * (255 - over.2.2.2) + 127) / 255,
   (over.2.1 * over.2.2.2 + base.2.1 * (255 - over.2.2.2) + 127) / 255,
   (over.2.2.1 * over.2.2.2 + base.2.2.1 * (255 - over.2.2.2) + 127) / 255,
   255)

/-- Lines 82-86: BGR to RGB channel swap followed by putalpha(255). -/
def rgbaOfBGR (p : Pix) : RGBA := (p.2.2, p.2.1, p.1, 255)

/-- Lines 78-106: draw_differences builds the opaque RGB copy of the
base image, paints the padded boxes on a transparent overlay and
composites the overlay over the copy.  The input image is only read,
never written. -/
def draw_differences (img : Img) (diffs : List Box) : RGBAImg :=
  ⟨img.h, img.w, fun y x =>
    compositePix (rgbaOfBGR (img.pix y x)) ((overlayOf img.h img.w diffs).pix y x)⟩

/-- Grid of pixel coordinates of an image of the given size. -/
def gridPixels (hgt wid : Nat) : List (Nat × Nat) :=
  (List.range hgt).flatMap fun y => (List.range wid).map fun x => (y, x)

/-- Pixels of the image grid that receive overlay paint for the given
difference boxes. -/
def paintedPixels (img : Img) (diffs : List Box) : List (Nat × Nat) :=
  (gridPixels img.h img.w).filter fun p =>
    (overlayOf img.h img.w diffs).pix p.1 p.2 != (0, 0, 0, 0)

/-- C6: draw_differences always returns an image of the same width and
height as the base image, and with no difference boxes every output
pixel is the channel-swapped base pixel with alpha 255, that is the
base image up to channel format conversion. -/
theorem draw_differences_props :
    (∀ (img : Img) (diffs : List Box),
      (draw_differences img diffs).h = img.h ∧ (draw_differences img diffs).w = img.w) ∧
    (∀ (img : Img) (y x : Nat),
      (draw_differences img []).pix y x = rgbaOfBGR (img.pix y x)) := by
  refine ⟨fun img diffs => ⟨rfl, rfl⟩, ?_⟩
  intro img y x
  show compositePix (rgbaOfBGR (img.pix y x)) ((overlayOf img.h img.w []).pix y x) =
    rgbaOfBGR (img.pix y x)
  have hov : (overlayOf img.h img.w []).pix y x = (0, 0, 0, 0) := rfl
  rw [hov]
  obtain ⟨b, g, r⟩ := img.pix y x
  show ((0 * 0 + r * (255 - 0) + 127) / 255,
        (0 * 0 + g * (255 - 0) + 127) / 255,
        (0 * 0 + b * (255 - 0) + 127) / 255, 255) = (r, g, b, 255)
  have harith : ∀ c : Nat, (0 * 0 + c * (255 - 0) + 127) / 255 = c := by
    intro c
    omega
  rw [harith r, harith g, harith b]

/-- C7 counterexample: the box (0, 0, 1, 1) touching the image border is
padded to the rectangle with corner coordinate -5, which lies outside
the range from 0 to the image width; no clamping happens before the
rectangle is handed to the rasteriser. -/
theorem padding_unclamped_counterexample :
    (padRect (toPillowRect ((0 : Nat), (0 : Nat), (1 : Nat), (1 : Nat)))).1 = -5 ∧
    ¬ (0 ≤ (padRect (toPillowRect ((0 : Nat), (0 : Nat), (1 : Nat), (1 : Nat)))).1) := by
  decide

/-- C7 amended: boxes are expanded by 5 pixels on all four sides with no
clamping, so a padded rectangle can have coordinates outside the image;
painting nevertheless only affects pixels of the image grid, because the
rasteriser clips drawing to the canvas. -/
theorem padded_rects_unclamped_paint_in_bounds :
    (∃ b : Box, (padRect (toPillowRect b)).1 < 0) ∧
    (∀ (img : Img) (diffs : List Box) (p : Nat × Nat),
      p ∈ paintedPixels img diffs → p.1 < img.h ∧ p.2 < img.w) := by
  refine ⟨⟨(0, 0, 1, 1), by decide⟩, ?_⟩
  intro img diffs p hp
  have h1 := List.mem_of_mem_filter hp
  simp only [gridPixels, List.mem_flatMap, List.mem_map, List.mem_range] at h1
  obtain ⟨y, hy, x, hx, hpe⟩ := h1
  subst hpe
  exact ⟨hy, hx⟩

/-- C7 witness: the amended bound instantiated at the one pixel black
image with the border box (0, 0, 1, 1), whose padded rectangle covers
pixel (0, 0). -/
theorem padded_paint_witness : (0 : Nat) < imgBlack1.h ∧ (0 : Nat) < imgBlack1.w :=
  padded_rects_unclamped_paint_in_bounds.2 imgBlack1 [(0, 0, 1, 1)] (0, 0) (by decide)

/-- Result of one call to the capture provider (url_to_img): a raster
image, or a raised capture error. -/
inductive CaptureResult where
  | ok (img : Img)
  | err

/-- How monitor_url_for_changes leaves its loop. -/
inductive LoopExit where
  | initialCaptureError
  | nameError
  | brokeOut
deriving DecidableEq

/-- Observable trace of one run of monitor_url_for_changes: the
baseline and new-capture pairs handed to find_differences, the value of
the baseline variable img1 on exit, how many tracebacks the except
clause printed, whether driver.quit ran, and how the loop ended. -/
structure MonitorTrace where
  comparisons : List (Img × Img)
  baseline : Option Img
  errorsLogged : Nat
  driverQuit : Bool
  exit : LoopExit

/-- Lines 129-165: monitor_url_for_changes.  The model follows the
source control flow exactly:

The initial capture on line 132 sits outside the try block, so its
failure propagates uncaught.

The finally clause on lines 162-165 runs del img2, driver.quit and then
break on every path through the loop body, so the while loop executes
its body exactly once.  When the capture on line 137 raises, the except
clause logs the traceback, but img2 was never bound, so the del on
line 163 raises NameError, which propagates out of the function before
driver.quit runs.

On line 143, any(differences) iterates the value returned by
cv2.groupRectangles.  With no differences that value is empty and the
test is false; with differences it is an N by 4 integer array whose
rows are length-4 arrays, and the truth value of such a row is
ambiguous, so the test raises ValueError before draw_differences, the
artifact write, the viewer call and the baseline assignment on
line 153.  The except clause logs it and the finally clause still runs
del, quit and break.

The artifact write and viewer call are therefore unreachable, and the
baseline assignment img1 = img2.copy() on line 153 runs only when the
difference set is empty. -/
def monitor_url_for_changes (capture : Nat → CaptureResult) : MonitorTrace :=
  match capture 0 with
  | .err => ⟨[], none, 0, false, .initialCaptureError⟩
  | .ok img1 =>
      match capture 1 with
      | .err => ⟨[], some img1, 1, false, .nameError⟩
      | .ok img2 =>
          match find_differences img1 img2 none with
          | .error _ => ⟨[(img1, img2)], some img1, 1, true, .brokeOut⟩
          | .ok diffs =>
              if diffs.isEmpty then
                ⟨[(img1, img2)], some img2, 0, true, .brokeOut⟩
              else
                ⟨[(img1, img2)], some img1, 1, true, .brokeOut⟩

/-- Capture provider of the C1 scenario: call 1 (index 0) returns an
image, call 2 (index 1) raises, call 3 (index 2) would return an image
again. -/
def capC1 : Nat → CaptureResult := fun n => if n = 1 then .err else .ok imgBlack1

/-- Capture provider whose every call after the first raises. -/
def capC9 : Nat → CaptureResult := fun n => if n = 0 then .ok imgBlack1 else .err

/-- Capture provider returning a white then a black capture, producing a
non-empty difference set on the first tick. -/
def capC5 : Nat → CaptureResult := fun n => if n = 0 then .ok imgWhite1 else .ok imgBlack1

/-- C1: with a provider that succeeds, fails, succeeds, the loop
performs no detection comparison at all: the tick-1 capture failure is
logged but the finally clause then raises NameError on del img2, and in
general no run of the loop ever performs more than one comparison,
because the break inside the finally clause ends the loop after its
first iteration.  This contradicts the claimed comparisons on ticks 1
and 3. -/
theorem monitor_single_iteration :
    (monitor_url_for_changes capC1).comparisons = [] ∧
    (monitor_url_for_changes capC1).exit = .nameError ∧
    ∀ capture : Nat → CaptureResult,
      ((monitor_url_for_changes capture).comparisons).length ≤ 1 := by
  refine ⟨rfl, rfl, ?_⟩
  intro capture
  unfold monitor_url_for_changes
  cases h0 : capture 0 with
  | err => simp [h0]
  | ok i1 =>
      cases h1 : capture 1 with
      | err => simp [h0, h1]
      | ok i2 =>
          cases hfd : find_differences i1 i2 none with
          | error e => simp [h0, h1, hfd]
          | ok ds =>
              by_cases hds : ds.isEmpty <;> simp [h0, h1, hfd, hds]

/-- C9: when the tick capture fails, the error is caught and logged
(one traceback is printed), but the loop does not proceed to a next
tick: the del statement in the finally clause raises NameError because
img2 was never bound, the exception escapes the loop, and driver.quit
never runs.  This contradicts the claimed catch-log-continue policy. -/
theorem monitor_error_escape :
    (monitor_url_for_changes capC9).errorsLogged = 1 ∧
    (monitor_url_for_changes capC9).exit = .nameError ∧
    (monitor_url_for_changes capC9).driverQuit = false ∧
    (monitor_url_for_changes capC9).comparisons = [] :=
  ⟨rfl, rfl, rfl, rfl⟩

/-- C5 counterexample: on a tick whose difference set is non-empty the
raw new capture does not become the baseline: the run with a white
baseline and a black new capture ends with the baseline still equal to
the old white capture, not the new black one. -/
theorem baseline_not_raw_capture_counterexample :
    (monitor_url_for_changes capC5).baseline ≠ some imgBlack1 := by
  have h2 : (monitor_url_for_changes capC5).baseline = some imgWhite1 := rfl
  rw [h2]
  intro hcontra
  have h3 : imgWhite1 = imgBlack1 := Option.some.inj hcontra
  have h4 := congrArg (fun i => i.pix 0 0) h3
  simp [imgWhite1, imgBlack1] at h4

/-- C5 amended: when both captures succeed and the difference set is
empty, a copy of the raw new capture becomes the baseline; when the
difference set is non-empty the tick raises before the assignment on
line 153 (the truth test on the N by 4 rectangle array is ambiguous),
so the old baseline is retained - and in every case the loop breaks, so
the baseline is never used by a next tick. -/
theorem monitor_baseline_policy (capture : Nat → CaptureResult) (A B : Img)
    (ds : List Box)
    (h0 : capture 0 = .ok A) (h1 : capture 1 = .ok B)
    (hfd : find_differences A B none = .ok ds) :
    (monitor_url_for_changes capture).baseline = some (if ds.isEmpty then B else A) ∧
    (monitor_url_for_changes capture).exit = .brokeOut := by
  unfold monitor_url_for_changes
  simp only [h0, h1, hfd]
  by_cases hds : ds.isEmpty <;> simp [hds]

/-- C5 witness: the amended baseline policy instantiated at the
white-then-black provider, whose first tick has the non-empty
difference set with the single box (0, 0, 1, 1). -/
theorem monitor_baseline_policy_witness :
    (monitor_url_for_changes capC5).baseline = some imgWhite1 := by
  have h := monitor_baseline_policy capC5 imgWhite1 imgBlack1 [(0, 0, 1, 1)] rfl rfl rfl
  simpa using h.1

/-- Success test on the result of find_differences. -/
def isOkB : Except DiffError (List Box) → Bool
  | .ok _ => true
  | .error _ => false

lemma fdGray_none (g1 g2 : GrayImg) :
    fdGray g1 g2 none =
      if g1.h = g2.h ∧ g1.w = g2.w then
        .ok (boundingBoxesOf (subtractSat g1 g2))
      else .error .sizeMismatch := rfl

lemma fdGray_some (g1 g2 : GrayImg) (a : Rect) :
    fdGray g1 g2 (some a) =
      if (crop g1 a).h = (crop g2 a).h ∧ (crop g1 a).w = (crop g2 a).w then
        .ok ((boundingBoxesOf (subtractSat (crop g1 a) (crop g2 a))).map fun b =>
          (b.1 + a.1, b.2.1 + a.2.1, b.2.2))
      else .error .sizeMismatch := rfl

/-- C4 counterexample: the area (0, 0, 5, 5) lies outside the bounds of
the two by two inputs, yet find_differences does not fail: the slice
silently clamps the area to the image and the call returns a normal box
list, contradicting the claimed InvalidRegion failure. -/
theorem roi_no_validation_counterexample :
    ¬ (0 + 5 ≤ imgPix2.w) ∧
    find_differences imgPix2 imgBlack2 (some (0, 0, 5, 5)) = .ok [(0, 0, 1, 1)] := by
  constructor
  · decide
  · rfl

/-- C4 amended: find_differences performs no region validation of its
own.  With no area argument, inputs that differ in height or width make
the per-pixel subtraction fail with its size mismatch error, so a
dimension mismatch is not silently ignored there; but with an area
argument, equal-size inputs always succeed, whatever the area - an
out-of-bounds area is silently clamped by the slice and no InvalidRegion
error exists. -/
theorem find_differences_validation :
    (∀ img1 img2 : Img, ¬ (img1.h = img2.h ∧ img1.w = img2.w) →
      find_differences img1 img2 none = .error .sizeMismatch) ∧
    (∀ (img1 img2 : Img) (a : Rect), img1.h = img2.h → img1.w = img2.w →
      isOkB (find_differences img1 img2 (some a)) = true) := by
  constructor
  · intro i1 i2 hne
    unfold find_differences
    rw [fdGray_none, if_neg]
    exact hne
  · intro i1 i2 a hh hw
    unfold find_differences
    rw [fdGray_some, if_pos]
    · rfl
    · constructor <;> simp [crop, cvtColorBGR2GRAY, hh, hw]

/-- C4 witness: a one pixel against two by two comparison without an
area fails with the size mismatch error, while the two by two pair with
the far out-of-bounds area (9, 9, 9, 9) succeeds. -/
theorem find_differences_validation_witness :
    find_differences imgWhite1 imgBlack2 none = .error .sizeMismatch ∧
    isOkB (find_differences imgPix2 imgBlack2 (some (9, 9, 9, 9))) = true :=
  ⟨find_differences_validation.1 imgWhite1 imgBlack2 (by decide),
   find_differences_validation.2 imgPix2 imgBlack2 (9, 9, 9, 9) rfl rfl⟩

/-- C8: for a valid area on equal-size images, every box returned by
find_differences sits inside the area expressed in the coordinates of
the original un-cropped image - its origin is at least the area origin
and its extent stays inside the area - and therefore lies entirely
within the image bounds. -/
theorem find_differences_roi_bounds (img1 img2 : Img) (ax ay aw ah : Nat)
    (hh : img1.h = img2.h) (hw : img1.w = img2.w)
    (hx : ax + aw ≤ img1.w) (hy : ay + ah ≤ img1.h)
    (boxes : List Box)
    (hfd : find_differences img1 img2 (some (ax, ay, aw, ah)) = .ok boxes) :
    ∀ b ∈ boxes,
      ax ≤ b.1 ∧ b.1 + b.2.2.1 ≤ ax + aw ∧
      ay ≤ b.2.1 ∧ b.2.1 + b.2.2.2 ≤ ay + ah ∧
      b.1 + b.2.2.1 ≤ img1.w ∧ b.2.1 + b.2.2.2 ≤ img1.h := by
  intro b hb
  have hcond : (crop (cvtColorBGR2GRAY img1) (ax, ay, aw, ah)).h =
      (crop (cvtColorBGR2GRAY img2) (ax, ay, aw, ah)).h ∧
      (crop (cvtColorBGR2GRAY img1) (ax, ay, aw, ah)).w =
      (crop (cvtColorBGR2GRAY img2) (ax, ay, aw, ah)).w := by
    constructor <;> simp [crop, cvtColorBGR2GRAY, hh, hw]
  unfold find_differences at hfd
  rw [fdGray_some, if_pos hcond] at hfd
  have hbs := Except.ok.inj hfd
  rw [← hbs] at hb
  rw [List.mem_map] at hb
  obtain ⟨b0, hb0, rfl⟩ := hb
  have hbounds := boundingBoxesOf_bounds hb0
  have hwc : (subtractSat (crop (cvtColorBGR2GRAY img1) (ax, ay, aw, ah))
      (crop (cvtColorBGR2GRAY img2) (ax, ay, aw, ah))).w = aw := by
    show min (ax + aw) img1.w - ax = aw
    omega
  have hhc : (subtractSat (crop (cvtColorBGR2GRAY img1) (ax, ay, aw, ah))
      (crop (cvtColorBGR2GRAY img2) (ax, ay, aw, ah))).h = ah := by
    show min (ay + ah) img1.h - ay = ah
    omega
  rw [hwc, hhc] at hbounds
  show ax ≤ b0.1 + ax ∧ b0.1 + ax + b0.2.2.1 ≤ ax + aw ∧
    ay ≤ b0.2.1 + ay ∧ b0.2.1 + ay + b0.2.2.2 ≤ ay + ah ∧
    b0.1 + ax + b0.2.2.1 ≤ img1.w ∧ b0.2.1 + ay + b0.2.2.2 ≤ img1.h
  omega

/-- Concrete three by three image with a single white pixel at row 1,
column 1. -/
def imgCenter3 : Img :=
  ⟨3, 3, fun y x => if y = 1 ∧ x = 1 then (255, 255, 255) else (0, 0, 0)⟩

/-- Concrete three by three black image. -/
def imgBlack3 : Img := ⟨3, 3, fun _ _ => (0, 0, 0)⟩

/-- C8 witness: the bound instantiated on the three by three pair under
the valid area (1, 1, 2, 2), whose single returned box is
(1, 1, 1, 1). -/
theorem find_differences_roi_bounds_witness :
    1 ≤ (1 : Nat) ∧ 1 + 1 ≤ 1 + 2 ∧ 1 ≤ (1 : Nat) ∧ 1 + 1 ≤ 1 + 2 ∧
    1 + 1 ≤ imgCenter3.w ∧ 1 + 1 ≤ imgCenter3.h :=
  find_differences_roi_bounds imgCenter3 imgBlack3 1 1 2 2 rfl rfl (by decide) (by decide)
    [(1, 1, 1, 1)] rfl ((1 : Nat), (1 : Nat), (1 : Nat), (1 : Nat)) (by decide)

/-- C10: the detector reads its inputs only through the grayscale
conversion: replacing either image by one with an identical grayscale
projection leaves the result of find_differences unchanged for every
area argument; and two equal-size images with identical grayscale
projections - in particular images differing only in chroma - always
yield an empty difference set. -/
theorem luminance_determines_output :
    (∀ (img1 img1b img2 img2b : Img) (area : Option Rect),
      cvtColorBGR2GRAY img1 = cvtColorBGR2GRAY img1b →
      cvtColorBGR2GRAY img2 = cvtColorBGR2GRAY img2b →
      find_differences img1 img2 area = find_differences img1b img2b area) ∧
    (∀ img1 img2 : Img,
      cvtColorBGR2GRAY img1 = cvtColorBGR2GRAY img2 →
      ∀ area : Option Rect, find_differences img1 img2 area = .ok []) := by
  constructor
  · intro i1 i1b i2 i2b area h1 h2
    unfold find_differences
    rw [h1, h2]
  · intro i1 i2 h area
    unfold find_differences
    rw [h]
    exact fdGray_self _ _

/-- Concrete one pixel pure blue image, grayscale value 29. -/
def imgBlue1 : Img := ⟨1, 1, fun _ _ => (255, 0, 0)⟩

/-- Concrete one pixel image with only a red channel of 96, grayscale
value 29 - the same luminance as the pure blue pixel, with different
chroma. -/
def imgChroma1 : Img := ⟨1, 1, fun _ _ => (0, 0, 96)⟩

/-- C10 witness: the blue and the red-channel images have identical
grayscale projections, so swapping one for the other leaves the
detector output unchanged and the pair itself compares as empty. -/
theorem luminance_determines_output_witness :
    find_differences imgBlue1 imgChroma1 none = find_differences imgChroma1 imgChroma1 none ∧
    find_differences imgBlue1 imgChroma1 none = .ok [] := by
  have hp : (fun y x => grayPix (imgBlue1.pix y x)) =
      (fun y x => grayPix (imgChroma1.pix y x)) := by
    funext y x
    show grayPix (255, 0, 0) = grayPix (0, 0, 96)
    decide
  have hg : cvtColorBGR2GRAY imgBlue1 = cvtColorBGR2GRAY imgChroma1 := by
    show GrayImg.mk imgBlue1.h imgBlue1.w (fun y x => grayPix (imgBlue1.pix y x)) =
      GrayImg.mk imgChroma1.h imgChroma1.w (fun y x => grayPix (imgChroma1.pix y x))
    rw [hp]
    rfl
  exact ⟨luminance_determines_output.1 imgBlue1 imgChroma1 imgChroma1 imgChroma1 none hg rfl,
    luminance_determines_output.2 imgBlue1 imgChroma1 hg none⟩
